import Mathlib

/-!
Verification development for the FinWise-AI hybrid trading-signal engine.

The engine lives in `core/indicators.py`, `core/model.py` and `core/signal.py`.
We give a shallow embedding over exact rationals:

* a pandas cell that holds a float is modelled as `some (q : ℚ)`, `NaN` as `none`
  (`Val := Option ℚ`); pandas comparisons on `NaN` are false, which
  `optLt`, `optLe` mirror;
* a raw dataframe cell (before `pd.to_numeric(..., errors="coerce")`) is a
  `RawVal`: a numeric value, a float `NaN`, or a non-numeric object such as a
  string — only the last raises when passed to Python `float(...)`;
* fallible Python code is modelled in `Except String`, where `.error` models an
  exception propagating out of the function.

All series operations below are translated from the pandas calls made by the
source (`diff`, `clip`, `rolling(...).mean()`, `ewm(span, adjust=False).mean()`,
`fillna(method="ffill")`).  The `ewm` recursion is only ever applied to series
whose `NaN`s form a prefix (close prices are forward-filled first), so the
behaviour of interior `NaN`s never matters for the embedded code paths.
-/

namespace FinWise

/-- A pandas float cell: `none` is `NaN`. -/
abbrev Val := Option ℚ

/-- Python float comparison `a < b`: false when either side is `NaN`. -/
def optLt (a b : Val) : Bool :=
  match a, b with
  | some x, some y => decide (x < y)
  | _, _ => false

/-- Python float comparison `a <= b`: false when either side is `NaN`. -/
def optLe (a b : Val) : Bool :=
  match a, b with
  | some x, some y => decide (x ≤ y)
  | _, _ => false

/-- `NaN`-propagating subtraction, as in pandas elementwise `-`. -/
def optSub (a b : Val) : Val :=
  match a, b with
  | some x, some y => some (x - y)
  | _, _ => none

/-- The element of a list of cells at index `i` (`NaN` when out of range;
in the source every access is in range). -/
def nth (s : List Val) (i : ℕ) : Val :=
  (s[i]?).join

/-- The last element of a series of cells, `s.iloc[-1]` (always in range in the
source). -/
def lastVal (s : List Val) : Val :=
  s.getLast?.join

/-- `series.diff()`: position 0 is `NaN`, position `i` is `s[i] - s[i-1]`,
`NaN`-propagating. -/
def diff (s : List Val) : List Val :=
  (List.range s.length).map (fun i =>
    if i = 0 then none else optSub (nth s i) (nth s (i - 1)))

/-- The non-`NaN` values of a window, in order. -/
def someVals (l : List Val) : List ℚ :=
  l.filterMap id

/-- `series.rolling(window=w, min_periods=m).mean()`: at position `i` the
window is the trailing `w` positions ending at `i` (fewer near the start);
the mean of its non-`NaN` values is produced when at least `m` of them exist,
else `NaN`. -/
def rollingMean (s : List Val) (w m : ℕ) : List Val :=
  (List.range s.length).map (fun i =>
    let vals := someVals ((s.take (i + 1)).drop (i + 1 - w))
    if m ≤ vals.length then some (vals.sum / (vals.length : ℚ)) else none)

/-- `series.ewm(span, adjust=False).mean()` recursion: seeded at the first
non-`NaN` value, `e_i = α x_i + (1 - α) e_(i-1)`.  Inputs in this development
have all their `NaN`s in a leading prefix (the close series is forward-filled),
where pandas also produces `NaN`. -/
def ewmGo (α : ℚ) (st : Val) : List Val → List Val
  | [] => []
  | v :: rest =>
    match v, st with
    | some x, some e =>
      let e2 := α * x + (1 - α) * e
      some e2 :: ewmGo α (some e2) rest
    | some x, none => some x :: ewmGo α (some x) rest
    | none, st2 => none :: ewmGo α st2 rest

/-- `series.ewm(span=span, adjust=False).mean()` with `α = 2/(span+1)`. -/
def ewm (span : ℚ) (s : List Val) : List Val :=
  ewmGo (2 / (span + 1)) none s

/-- `series.fillna(method="ffill")`: carry the last non-`NaN` value forward;
leading `NaN`s stay `NaN`. -/
def ffillGo (st : Val) : List Val → List Val
  | [] => []
  | v :: rest =>
    match v with
    | some x => some x :: ffillGo (some x) rest
    | none => st :: ffillGo st rest

/-- Forward fill, starting with no carried value. -/
def ffill (s : List Val) : List Val :=
  ffillGo none s

/-- `compute_ma` from `core/indicators.py`:
`series.rolling(window=window, min_periods=1).mean()`. -/
def compute_ma (series : List Val) (window : ℕ) : List Val :=
  rollingMean series window 1

/-- `gain = delta.clip(lower=0)` from `compute_rsi`. -/
def rsiGain (delta : List Val) : List Val :=
  delta.map (Option.map (fun x => max x 0))

/-- `loss = -delta.clip(upper=0)` from `compute_rsi`. -/
def rsiLoss (delta : List Val) : List Val :=
  delta.map (Option.map (fun x => -(min x 0)))

/-- `rs = avg_gain / avg_loss.replace(0, float("inf"))` from `compute_rsi`,
elementwise: a zero average loss is replaced by `+∞`, and a finite average
gain divided by `+∞` is `0`; a `NaN` on either side propagates. -/
def rsiRsList (n : ℕ) (avg_gain avg_loss : List Val) : List Val :=
  (List.range n).map (fun i =>
    match nth avg_gain i, nth avg_loss i with
    | some g, some l => some (if l = 0 then (0 : ℚ) else g / l)
    | _, _ => none)

/-- `(100 - (100 / (1 + rs))).fillna(50)` from `compute_rsi`, elementwise. -/
def rsiFill : Val → ℚ
  | some r => 100 - 100 / (1 + r)
  | none => 50

/-- `compute_rsi` from `core/indicators.py`.  `delta = series.diff()`;
the averages use `rolling(window, min_periods=window)`;
`rsi = 100 - 100/(1+rs)`, `NaN`s filled with 50. -/
def compute_rsi (series : List Val) (window : ℕ) : List ℚ :=
  let delta := diff series
  let avg_gain := rollingMean (rsiGain delta) window window
  let avg_loss := rollingMean (rsiLoss delta) window window
  (rsiRsList series.length avg_gain avg_loss).map rsiFill

/-- The frame returned by `compute_macd`: columns `macd`, `signal`, `hist`. -/
structure MacdFrame where
  macd : List Val
  signal : List Val
  hist : List Val
deriving Repr, DecidableEq

/-- `compute_macd` from `core/indicators.py`: `ema12 - ema26`, its span-9 ewm
as the signal line, and their difference as the histogram. -/
def compute_macd (series : List Val) : MacdFrame :=
  let ema12 := ewm 12 series
  let ema26 := ewm 26 series
  let macd := List.zipWith optSub ema12 ema26
  let signal := ewm 9 macd
  let hist := List.zipWith optSub macd signal
  { macd := macd, signal := signal, hist := hist }

/-- A raw dataframe cell before numeric coercion: a float, a float `NaN`, or a
non-numeric object (modelled as a string, the shape seen in practice).
`pd.to_numeric(..., errors="coerce")` turns the last two into `NaN`;
Python `float(...)` raises on the last one only. -/
inductive RawVal where
  | num (q : ℚ)
  | nan
  | str (s : String)
deriving Repr, DecidableEq

/-- `pd.to_numeric(cell, errors="coerce")`. -/
def coerceVal : RawVal → Val
  | .num q => some q
  | .nan => none
  | .str _ => none

/-- Python `float(cell)`: succeeds on floats (including `NaN`), raises
`ValueError` on a non-numeric object. -/
def pyFloat : RawVal → Except String Val
  | .num q => .ok (some q)
  | .nan => .ok none
  | .str s => .error ("could not convert string to float: " ++ s)

/-- The value `float(cell)` yields when it does not raise. -/
def pyVal : RawVal → Val
  | .num q => some q
  | .nan => none
  | .str _ => none

/-- Whether a raw cell is a numeric (float) value. -/
def RawVal.isNum : RawVal → Bool
  | .num _ => true
  | _ => false

/-- Whether a raw cell is a non-numeric object. -/
def RawVal.isStr : RawVal → Bool
  | .str _ => true
  | _ => false

/-- The part of an input dataframe `hybrid_signal` looks at: whether a
`close` column exists, and the rows of that column (`rows` also carries the
row count, so `df.empty` is `rows = []`). -/
structure Frame where
  hasClose : Bool
  rows : List RawVal
deriving Repr, DecidableEq

/-- A model-meta dictionary.  Each field is `none` when the corresponding key
is absent from the Python dict. -/
structure Meta where
  trained_epochs : Option ℕ
  fallback : Option Bool
  reason : Option String
  loss_history : Option (List ℚ)
deriving Repr, DecidableEq

/-- The triple returned by `predict_next_price`:
`(predicted_price, predicted_change_pct, meta)`. -/
structure Forecast where
  price : Val
  pct : Val
  meta : Meta
deriving Repr, DecidableEq

/-- The `indicators` mapping of a `SignalResult`. -/
structure IndicatorSnapshot where
  rsi : Val
  macd : Val
  macd_signal : Val
  ma50 : Val
  ma200 : Val
  latest_close : Val
deriving Repr, DecidableEq

/-- The `SignalResult` dataclass from `core/signal.py`. -/
structure SignalResult where
  coin : String
  signal : String
  predicted_price : Val
  predicted_change_pct : Val
  indicators : IndicatorSnapshot
  explanation : List String
  model_meta : Meta
  fallback : Bool
deriving Repr, DecidableEq

/-- The dict `{"trained_epochs": 0, "fallback": False, "loss_history": []}`
that `predict_next_price` starts from. -/
def baseMeta : Meta :=
  { trained_epochs := some 0, fallback := some false, reason := none,
    loss_history := some [] }

/-- `predict_next_price` from `core/model.py`, up to its data guards.  The
training loop and inference of the on-the-fly LSTM are not embedded (they are
floating-point, randomized torch code); they are taken as a parameter `train`,
invoked exactly when the source reaches the training code.  Every claim below
concerns only the guard paths, which do not depend on `train`. -/
def predictNextPrice (train : List Val → ℕ → ℕ → ℕ → Forecast)
    (series : Option (List Val)) (lookback epochs hidden : ℕ) : Forecast :=
  match series with
  | none => { price := some 0, pct := some 0,
              meta := { baseMeta with fallback := some true } }
  | some l =>
    if l.isEmpty then
      { price := some 0, pct := some 0,
        meta := { baseMeta with fallback := some true } }
    else
      let closing := ffill l
      if closing.length < lookback + 2 then
        { price := lastVal closing, pct := some 0,
          meta := { baseMeta with
                    fallback := some true,
                    reason := some "insufficient_data" } }
      else
        train closing lookback epochs hidden

/-- The technical score of `hybrid_signal` (`core/signal.py`), from the latest
values of the five indicators; comparisons against `NaN` are false. -/
def techScore (rsi macd macd_sig ma50 ma200 : Val) : ℤ :=
  (if optLt rsi (some 30) then 1 else 0)
  + (if optLt (some 70) rsi then -1 else 0)
  + (if optLt macd_sig macd then 1 else 0)
  + (if optLt macd macd_sig then -1 else 0)
  + (if optLt ma200 ma50 then 1 else 0)
  + (if optLt ma50 ma200 then -1 else 0)

/-- The base signal of `hybrid_signal`: `BUY` for score at least 2, `SELL`
for score at most -2, else `HOLD`. -/
def baseSig (score : ℤ) : String :=
  if 2 ≤ score then "BUY" else if score ≤ -2 then "SELL" else "HOLD"

/-- The forecast override of `hybrid_signal`: an upgrade to `BUY` when the
predicted change is at least +1% and the base is not `SELL`, else to `SELL`
when it is at most -1% and the base is not `BUY`, else the base stands. -/
def applyOverride (base : String) (pct : Val) : String :=
  if optLe (some (1 / 100)) pct && base != "SELL" then "BUY"
  else if optLe pct (some (-(1 / 100))) && base != "BUY" then "SELL"
  else base

/-- Rendering of a float for an explanation line.  Python formats with a fixed
number of decimals; the exact digit string is irrelevant to every claim, so the
value is rendered as a rational. -/
def fmtVal : Val → String
  | some q => toString q
  | none => "nan"

/-- `_build_explanation_lines` from `core/signal.py`: the five fixed-template
lines (numeric formatting abstracted by `fmtVal`). -/
def buildExplanationLines (signal : String) (ind : IndicatorSnapshot)
    (pct : Val) : List String :=
  let macd_rel := optSub ind.macd ind.macd_signal
  let trend := if optLt ind.ma200 ind.ma50 then "bullish" else "bearish"
  [ "RSI " ++ fmtVal ind.rsi ++ " -> momentum "
      ++ (if optLt ind.rsi (some 30) then "oversold"
          else if optLt (some 70) ind.rsi then "overbought" else "netral")
      ++ ".",
    "MACD spread " ++ fmtVal macd_rel ++ " -> "
      ++ (if optLt (some 0) macd_rel then "positif" else "negatif")
      ++ " dibanding sinyal.",
    "MA50 vs MA200 menunjukkan tren " ++ trend ++ ".",
    "Model LSTM memperkirakan perubahan "
      ++ fmtVal (pct.map (fun q => q * 100)) ++ "%.",
    "Rekomendasi akhir: " ++ signal ++ "." ]

/-- `_fallback_result` from `core/signal.py`. -/
def fallbackResult (coin_id reason : String) : SignalResult :=
  { coin := coin_id,
    signal := "HOLD",
    predicted_price := some 0,
    predicted_change_pct := some 0,
    indicators := { rsi := some 50, macd := some 0, macd_signal := some 0,
                    ma50 := some 0, ma200 := some 0, latest_close := some 0 },
    explanation :=
      ["Data harga tidak tersedia (" ++ reason ++ ") -> fallback HOLD."],
    model_meta := { trained_epochs := none, fallback := some true,
                    reason := some reason, loss_history := none },
    fallback := true }

/-- The meta dict built in the `except` branch of `hybrid_signal`:
`{"fallback": True, "reason": str(e)}`. -/
def exceptMeta (e : String) : Meta :=
  { trained_epochs := none, fallback := some true, reason := some e,
    loss_history := none }

/-- The `(pred_price, pct_change, model_meta)` triple of `hybrid_signal`:
the forecast when `predict_next_price` returns, else the caught-exception
substitute `(float(latest["close"]), 0.0, {"fallback": True, "reason": str(e)})`. -/
def forecastOf (predict : List Val → Except String Forecast)
    (close : List Val) (lastClose : Val) : Forecast :=
  match predict close with
  | .ok fc => fc
  | .error e => { price := lastClose, pct := some 0, meta := exceptMeta e }

/-- The main (non-fallback) path of `hybrid_signal`, after the close series
has been coerced and forward-filled and `float(latest["close"])` has been
evaluated to `lastClose`. -/
def mainResult (predict : List Val → Except String Forecast)
    (close : List Val) (lastClose : Val) (coin_id : String) : SignalResult :=
  let latest_rsi : Val := (compute_rsi close 14).getLast?
  let macdF := compute_macd close
  let latest_macd := lastVal macdF.macd
  let latest_sig := lastVal macdF.signal
  let latest_ma50 := lastVal (compute_ma close 50)
  let latest_ma200 := lastVal (compute_ma close 200)
  let fc := forecastOf predict close lastClose
  let score := techScore latest_rsi latest_macd latest_sig latest_ma50 latest_ma200
  let final_signal := applyOverride (baseSig score) fc.pct
  let ind : IndicatorSnapshot :=
    { rsi := latest_rsi, macd := latest_macd, macd_signal := latest_sig,
      ma50 := latest_ma50, ma200 := latest_ma200, latest_close := lastClose }
  { coin := coin_id,
    signal := final_signal,
    predicted_price := fc.price,
    predicted_change_pct := fc.pct,
    indicators := ind,
    explanation := buildExplanationLines final_signal ind fc.pct,
    model_meta := fc.meta,
    fallback := fc.meta.fallback.getD false }

/-- `hybrid_signal` from `core/signal.py`.  `predict` is the (unembedded,
possibly raising) `predict_next_price` call; an `.error` result models an
exception escaping `hybrid_signal` — the only such exception is the
`float(latest["close"])` conversion of a non-numeric last close cell, which the
source evaluates inside the `except` branch and when building `indicators`;
both occurrences fail identically, so it is hoisted before `mainResult`. -/
def hybridSignal (predict : List Val → Except String Forecast)
    (df : Option Frame) (coin_id : String) : Except String SignalResult :=
  match df with
  | none => .ok (fallbackResult coin_id "no_data")
  | some f =>
    if f.rows.isEmpty || !f.hasClose then
      .ok (fallbackResult coin_id "no_data")
    else
      let close := ffill (f.rows.map coerceVal)
      if close.all Option.isNone then
        .ok (fallbackResult coin_id "invalid_close_series")
      else
        (pyFloat ((f.rows.getLast?).getD .nan)).map
          (fun lc => mainResult predict close lc coin_id)

/-! ### Sample inputs and oracles used by concrete instantiations -/

/-- A forecast oracle that always succeeds with a neutral forecast. -/
def okPredict : List Val → Except String Forecast := fun _ =>
  .ok { price := some 0, pct := some 0, meta := baseMeta }

/-- A forecast oracle that always raises. -/
def errPredict : List Val → Except String Forecast := fun _ => .error "boom"

/-- A stand-in for the unembedded LSTM training code. -/
def dummyTrain : List Val → ℕ → ℕ → ℕ → Forecast := fun _ _ _ _ =>
  { price := some 42, pct := some 0, meta := baseMeta }

/-- A second, different stand-in for the training code. -/
def dummyTrain2 : List Val → ℕ → ℕ → ℕ → Forecast := fun _ _ _ _ =>
  { price := none, pct := none, meta := baseMeta }

/-! ### Helper lemmas -/

theorem optLe_of_le {a b : ℚ} (h : a ≤ b) : optLe (some a) (some b) = true := by
  simp [optLe, h]

theorem optLe_not_both {pct : Val} :
    ¬(optLe (some (1 / 100 : ℚ)) pct = true
      ∧ optLe pct (some (-(1 / 100) : ℚ)) = true) := by
  rintro ⟨h1, h2⟩
  cases pct with
  | none => simp [optLe] at h1
  | some p =>
    simp [optLe] at h1 h2
    linarith

/-! ### C1: the technical score is bounded and mapped to the base signal -/

/-- C1: the technical score `hybrid_signal` computes from the latest indicator
values is an integer in `[-3, 3]`; the two conditions for each indicator are
mutually exclusive (each indicator contributes at most once); and the base
signal is `BUY` when the score is at least 2, `SELL` when it is at most -2,
and `HOLD` otherwise. -/
theorem claim_C1_score_bounds :
    ∀ rsi macd macd_sig ma50 ma200 : Val,
      (-3 ≤ techScore rsi macd macd_sig ma50 ma200
        ∧ techScore rsi macd macd_sig ma50 ma200 ≤ 3)
      ∧ ¬(optLt rsi (some 30) = true ∧ optLt (some 70) rsi = true)
      ∧ ¬(optLt macd_sig macd = true ∧ optLt macd macd_sig = true)
      ∧ ¬(optLt ma200 ma50 = true ∧ optLt ma50 ma200 = true)
      ∧ (2 ≤ techScore rsi macd macd_sig ma50 ma200 →
          baseSig (techScore rsi macd macd_sig ma50 ma200) = "BUY")
      ∧ (techScore rsi macd macd_sig ma50 ma200 ≤ -2 →
          baseSig (techScore rsi macd macd_sig ma50 ma200) = "SELL")
      ∧ (-2 < techScore rsi macd macd_sig ma50 ma200 →
          techScore rsi macd macd_sig ma50 ma200 < 2 →
          baseSig (techScore rsi macd macd_sig ma50 ma200) = "HOLD") := by
  intro r m s a b
  refine ⟨?_, ?_, ?_, ?_, ?_, ?_, ?_⟩
  · unfold techScore
    split_ifs <;> omega
  · rintro ⟨h1, h2⟩
    cases r with
    | none => simp [optLt] at h1
    | some q =>
      simp [optLt] at h1 h2
      linarith
  · rintro ⟨h1, h2⟩
    cases m with
    | none => simp [optLt] at h2
    | some q =>
      cases s with
      | none => simp [optLt] at h1
      | some q2 =>
        simp [optLt] at h1 h2
        linarith
  · rintro ⟨h1, h2⟩
    cases a with
    | none => simp [optLt] at h2
    | some q =>
      cases b with
      | none => simp [optLt] at h1
      | some q2 =>
        simp [optLt] at h1 h2
        linarith
  · intro h
    unfold baseSig
    rw [if_pos h]
  · intro h
    unfold baseSig
    rw [if_neg (by omega), if_pos h]
  · intro h1 h2
    unfold baseSig
    rw [if_neg (by omega), if_neg (by omega)]

/-- Witness for C1 at concrete indicator values: an oversold, bullish input
maps to `BUY`, an overbought, bearish one to `SELL`, and all-`NaN` indicators
score 0 and map to `HOLD`. -/
theorem claim_C1_score_bounds_witness :
    baseSig (techScore (some 20) (some 1) (some 0) (some 2) (some 1)) = "BUY"
    ∧ baseSig (techScore (some 80) (some 0) (some 1) (some 1) (some 2)) = "SELL"
    ∧ baseSig (techScore none none none none none) = "HOLD" :=
  ⟨(claim_C1_score_bounds (some 20) (some 1) (some 0) (some 2)
      (some 1)).2.2.2.2.1 (by decide),
   (claim_C1_score_bounds (some 80) (some 0) (some 1) (some 1)
      (some 2)).2.2.2.2.2.1 (by decide),
   (claim_C1_score_bounds none none none none
      none).2.2.2.2.2.2 (by decide) (by decide)⟩

/-! ### C2: the forecast override upgrades or reinforces but never flips -/

/-- C2: for every base signal and every forecast change value, the override
can upgrade `HOLD` to `BUY` (change at least +1%) or to `SELL` (change at most
-1%) and reinforces a matching directional base, but never flips one: a `BUY`
base never becomes `SELL` and a `SELL` base never becomes `BUY`, regardless of
the forecast magnitude. -/
theorem claim_C2_override_never_flips :
    ∀ (base : String) (pct : Val),
      (base = "BUY" → applyOverride base pct ≠ "SELL")
      ∧ (base = "SELL" → applyOverride base pct ≠ "BUY")
      ∧ (base = "BUY" → optLe (some (1 / 100)) pct = true →
          applyOverride base pct = "BUY")
      ∧ (base = "SELL" → optLe pct (some (-(1 / 100))) = true →
          applyOverride base pct = "SELL")
      ∧ (base = "HOLD" → optLe (some (1 / 100)) pct = true →
          applyOverride base pct = "BUY")
      ∧ (base = "HOLD" → optLe pct (some (-(1 / 100))) = true →
          applyOverride base pct = "SELL") := by
  intro base pct
  refine ⟨?_, ?_, ?_, ?_, ?_, ?_⟩
  · rintro rfl
    unfold applyOverride
    split_ifs <;> simp_all
  · rintro rfl
    unfold applyOverride
    split_ifs <;> simp_all
  · rintro rfl h
    unfold applyOverride
    simp [h]
  · rintro rfl h
    have h1 : optLe (some (1 / 100 : ℚ)) pct = false := by
      cases hb : optLe (some (1 / 100 : ℚ)) pct with
      | false => rfl
      | true => exact absurd ⟨hb, h⟩ optLe_not_both
    unfold applyOverride
    simp [h, h1]
  · rintro rfl h
    unfold applyOverride
    rw [h]
    simp
  · rintro rfl h
    have h1 : optLe (some (1 / 100 : ℚ)) pct = false := by
      cases hb : optLe (some (1 / 100 : ℚ)) pct with
      | false => rfl
      | true => exact absurd ⟨hb, h⟩ optLe_not_both
    unfold applyOverride
    rw [h1, h]
    simp

/-- Witness for C2: a `BUY` base survives a -500% forecast without flipping to
`SELL`, and a `HOLD` base with a +100% forecast is upgraded to `BUY`. -/
theorem claim_C2_override_never_flips_witness :
    applyOverride "BUY" (some (-5)) ≠ "SELL"
    ∧ applyOverride "HOLD" (some 1) = "BUY" :=
  ⟨(claim_C2_override_never_flips "BUY" (some (-5))).1 rfl,
   (claim_C2_override_never_flips "HOLD" (some 1)).2.2.2.2.1 rfl
     (optLe_of_le (by norm_num))⟩

/-! ### C3: the fallback chain of hybrid_signal -/

theorem ffillGo_all_none :
    ∀ s : List Val, s.all Option.isNone = true →
      (ffillGo none s).all Option.isNone = true := by
  intro s
  induction s with
  | nil => intro _; rfl
  | cons v rest ih =>
    intro h
    simp only [List.all_cons, Bool.and_eq_true] at h
    cases v with
    | some q => simp at h
    | none =>
      simp only [ffillGo, List.all_cons, Bool.and_eq_true]
      exact ⟨rfl, ih h.2⟩

/-- C3: the fallback chain is checked in order.  A missing frame, an empty
frame, or a frame without a close column yields the `"no_data"` fallback;
otherwise, when every close value is non-numeric after coercion, the
`"invalid_close_series"` fallback; and the fallback result has signal `HOLD`,
all indicators 0 except `rsi = 50`, zero forecast fields, exactly one
explanation line stating the reason, and `fallback = true`. -/
theorem claim_C3_fallback_chain :
    ∀ (predict : List Val → Except String Forecast) (coin : String)
      (f : Frame) (reason : String),
      hybridSignal predict none coin = .ok (fallbackResult coin "no_data")
      ∧ (f.rows = [] →
          hybridSignal predict (some f) coin = .ok (fallbackResult coin "no_data"))
      ∧ (f.hasClose = false →
          hybridSignal predict (some f) coin = .ok (fallbackResult coin "no_data"))
      ∧ (f.rows ≠ [] → f.hasClose = true →
          f.rows.all (fun v => (coerceVal v).isNone) = true →
          hybridSignal predict (some f) coin =
            .ok (fallbackResult coin "invalid_close_series"))
      ∧ ((fallbackResult coin reason).signal = "HOLD"
          ∧ (fallbackResult coin reason).indicators =
              { rsi := some 50, macd := some 0, macd_signal := some 0,
                ma50 := some 0, ma200 := some 0, latest_close := some 0 }
          ∧ (fallbackResult coin reason).predicted_price = some 0
          ∧ (fallbackResult coin reason).predicted_change_pct = some 0
          ∧ (fallbackResult coin reason).explanation =
              ["Data harga tidak tersedia (" ++ reason ++ ") -> fallback HOLD."]
          ∧ (fallbackResult coin reason).fallback = true) := by
  intro predict coin f reason
  refine ⟨rfl, ?_, ?_, ?_, rfl, rfl, rfl, rfl, rfl, rfl⟩
  · intro h
    simp [hybridSignal, h]
  · intro h
    simp [hybridSignal, h]
  · intro h1 h2 h3
    have hfill : (ffill (f.rows.map coerceVal)).all Option.isNone = true := by
      apply ffillGo_all_none
      simpa [List.all_map, Function.comp] using h3
    have hne : f.rows.isEmpty = false := by
      simpa [List.isEmpty_iff] using h1
    simp [hybridSignal, hne, h2, hfill]

/-- Witness for C3: a two-row frame whose close cells are a float `NaN` and a
non-numeric string falls through the first check and hits the
`"invalid_close_series"` fallback. -/
theorem claim_C3_fallback_chain_witness :
    hybridSignal okPredict (some ⟨true, [RawVal.nan, RawVal.str "x"]⟩) "bitcoin" =
      .ok (fallbackResult "bitcoin" "invalid_close_series") :=
  (claim_C3_fallback_chain okPredict "bitcoin" ⟨true, [RawVal.nan, RawVal.str "x"]⟩
    "no_data").2.2.2.1 (by decide) rfl (by decide)

/-! ### C4: the insufficient-data guard of predict_next_price -/

/-- C4: for every non-empty series whose forward-filled length is below
`lookback + 2`, `predict_next_price` skips training entirely (the result does
not depend on the training code and reports `trained_epochs = 0`) and returns
the last observed price with a zero predicted change, `fallback = true` and
reason `"insufficient_data"`. -/
theorem claim_C4_insufficient_data :
    ∀ (train train2 : List Val → ℕ → ℕ → ℕ → Forecast) (l : List Val)
      (lookback epochs hidden : ℕ),
      l ≠ [] → (ffill l).length < lookback + 2 →
      (predictNextPrice train (some l) lookback epochs hidden =
        { price := lastVal (ffill l), pct := some 0,
          meta := { trained_epochs := some 0, fallback := some true,
                    reason := some "insufficient_data",
                    loss_history := some [] } }
       ∧ predictNextPrice train (some l) lookback epochs hidden =
           predictNextPrice train2 (some l) lookback epochs hidden) := by
  intro train train2 l lookback epochs hidden hne hlen
  have he : l.isEmpty = false := by simpa [List.isEmpty_iff] using hne
  constructor
  · simp [predictNextPrice, he, hlen, baseMeta]
  · simp [predictNextPrice, he, hlen]

/-- Witness for C4: a 10-row series against the default lookback of 30. -/
theorem claim_C4_insufficient_data_witness :
    predictNextPrice dummyTrain
        (some (List.replicate 10 (some (7 : ℚ)))) 30 3 48 =
      { price := lastVal (ffill (List.replicate 10 (some (7 : ℚ)))),
        pct := some 0,
        meta := { trained_epochs := some 0, fallback := some true,
                  reason := some "insufficient_data",
                  loss_history := some [] } } :=
  (claim_C4_insufficient_data dummyTrain dummyTrain2
    (List.replicate 10 (some (7 : ℚ))) 30 3 48 (by decide) (by decide)).1

/-! ### C10: the none/empty fallback of predict_next_price -/

/-- C10: for a `None` or empty input series, `predict_next_price` returns a
zero predicted price (not a last observed price), a zero predicted change, and
a meta dict with `fallback = true`, `trained_epochs = 0` and no `reason` key,
so this case carries no distinguishing reason string. -/
theorem claim_C10_none_empty_fallback :
    ∀ (train : List Val → ℕ → ℕ → ℕ → Forecast) (lookback epochs hidden : ℕ),
      (predictNextPrice train none lookback epochs hidden).price = some 0
      ∧ (predictNextPrice train none lookback epochs hidden).pct = some 0
      ∧ (predictNextPrice train none lookback epochs hidden).meta.fallback = some true
      ∧ (predictNextPrice train none lookback epochs hidden).meta.trained_epochs = some 0
      ∧ (predictNextPrice train none lookback epochs hidden).meta.reason = none
      ∧ (predictNextPrice train (some []) lookback epochs hidden).price = some 0
      ∧ (predictNextPrice train (some []) lookback epochs hidden).pct = some 0
      ∧ (predictNextPrice train (some []) lookback epochs hidden).meta.fallback = some true
      ∧ (predictNextPrice train (some []) lookback epochs hidden).meta.trained_epochs = some 0
      ∧ (predictNextPrice train (some []) lookback epochs hidden).meta.reason = none :=
  fun _ _ _ _ =>
    ⟨rfl, rfl, rfl, rfl, rfl, rfl, rfl, rfl, rfl, rfl⟩

/-! ### C9: the indicator library is deterministic -/

/-- Two calls of the same function on the same input, in sequence. -/
def callTwice {α β : Type} (f : α → β) (x : α) : β × β := (f x, f x)

/-- C9: the indicator library is deterministic and stateless — the embedding
of `compute_ma`, `compute_rsi` and `compute_macd` is a pure function of the
series (no hidden state, no randomness appears anywhere in their source), so
two calls on the same series yield identical outputs. -/
theorem claim_C9_indicators_deterministic :
    ∀ (s : List Val) (w : ℕ),
      (callTwice (fun t => compute_ma t w) s).1 =
        (callTwice (fun t => compute_ma t w) s).2
      ∧ (callTwice (fun t => compute_rsi t w) s).1 =
          (callTwice (fun t => compute_rsi t w) s).2
      ∧ (callTwice compute_macd s).1 = (callTwice compute_macd s).2 :=
  fun _ _ => ⟨rfl, rfl, rfl⟩

/-! ### C8: exception behaviour of hybrid_signal -/

theorem pyFloat_eq_ok (v : RawVal) (h : v.isStr = false) :
    pyFloat v = .ok (pyVal v) := by
  cases v with
  | num q => rfl
  | nan => rfl
  | str s => simp [RawVal.isStr] at h

/-- On the main path (non-empty frame with a close column, not all-`NaN`),
`hybrid_signal` returns `mainResult` when the last raw close cell converts. -/
theorem hybridSignal_main (predict : List Val → Except String Forecast)
    (f : Frame) (coin : String)
    (h1 : f.rows.isEmpty = false) (h2 : f.hasClose = true)
    (h3 : (ffill (f.rows.map coerceVal)).all Option.isNone = false)
    (h4 : ((f.rows.getLast?).getD RawVal.nan).isStr = false) :
    hybridSignal predict (some f) coin =
      .ok (mainResult predict (ffill (f.rows.map coerceVal))
        (pyVal ((f.rows.getLast?).getD RawVal.nan)) coin) := by
  simp [hybridSignal, h1, h2, h3, pyFloat_eq_ok _ h4, Except.map]

theorem forecastOf_error (predict : List Val → Except String Forecast)
    (close : List Val) (lc : Val) (e : String)
    (h : predict close = .error e) :
    forecastOf predict close lc =
      { price := lc, pct := some 0, meta := exceptMeta e } := by
  simp [forecastOf, h]

/-- Whether the last cell of the close column is a float (so that
`float(latest["close"])` cannot raise). -/
def lastCellOk : Option Frame → Bool
  | none => true
  | some f => !((f.rows.getLast?).getD RawVal.nan).isStr

/-- C8 (amended): for every input frame whose last close cell is a float,
`hybrid_signal` never propagates an exception: data errors are recovered into
a fallback `HOLD` result, and a forecasting exception is caught and
substituted with the last close as predicted price, a zero predicted change
and `fallback = true`.  (The unamended claim fails: a non-numeric object in
the last close cell reaches `float(...)` and escapes, see the
counterexample.) -/
theorem claim_C8_no_exceptions_amended :
    ∀ (predict : List Val → Except String Forecast) (coin : String)
      (df : Option Frame),
      lastCellOk df = true →
      (∃ r, hybridSignal predict df coin = .ok r)
      ∧ (df = none → hybridSignal predict df coin =
          .ok (fallbackResult coin "no_data"))
      ∧ (∀ f, df = some f → f.rows.isEmpty = false → f.hasClose = true →
          (ffill (f.rows.map coerceVal)).all Option.isNone = false →
          ∀ e, predict (ffill (f.rows.map coerceVal)) = .error e →
          ∃ r, hybridSignal predict df coin = .ok r
            ∧ r.predicted_price = pyVal ((f.rows.getLast?).getD RawVal.nan)
            ∧ r.predicted_change_pct = some 0
            ∧ r.fallback = true) := by
  intro predict coin df hok
  refine ⟨?_, ?_, ?_⟩
  · cases df with
    | none => exact ⟨fallbackResult coin "no_data", rfl⟩
    | some f =>
      by_cases h1 : f.rows.isEmpty = true
      · exact ⟨fallbackResult coin "no_data", by simp [hybridSignal, h1]⟩
      · by_cases h2 : f.hasClose = true
        · by_cases h3 : (ffill (f.rows.map coerceVal)).all Option.isNone = true
          · exact ⟨fallbackResult coin "invalid_close_series",
              by simp [hybridSignal, Bool.eq_false_iff.2 h1, h2, h3]⟩
          · refine ⟨_, hybridSignal_main predict f coin ?_ h2 ?_ ?_⟩
            · exact Bool.eq_false_iff.2 h1
            · exact Bool.eq_false_iff.2 h3
            · simpa [lastCellOk] using hok
        · exact ⟨fallbackResult coin "no_data",
            by simp [hybridSignal, Bool.eq_false_iff.2 h2]⟩
  · rintro rfl
    rfl
  · rintro f rfl h1 h2 h3 e he
    have h4 : ((f.rows.getLast?).getD RawVal.nan).isStr = false := by
      simpa [lastCellOk] using hok
    refine ⟨_, hybridSignal_main predict f coin h1 h2 h3 h4, ?_, ?_, ?_⟩
    · show (forecastOf predict (ffill (f.rows.map coerceVal))
        (pyVal ((f.rows.getLast?).getD RawVal.nan))).price = _
      rw [forecastOf_error _ _ _ _ he]
    · show (forecastOf predict (ffill (f.rows.map coerceVal))
        (pyVal ((f.rows.getLast?).getD RawVal.nan))).pct = _
      rw [forecastOf_error _ _ _ _ he]
    · show (forecastOf predict (ffill (f.rows.map coerceVal))
        (pyVal ((f.rows.getLast?).getD RawVal.nan))).meta.fallback.getD false = _
      rw [forecastOf_error _ _ _ _ he]
      rfl

/-- Witness for the amended C8: a three-row numeric frame whose forecast
oracle raises still yields an ok result with the substituted forecast. -/
theorem claim_C8_no_exceptions_amended_witness :
    ∃ r, hybridSignal errPredict
        (some (Frame.mk true [RawVal.num 1, RawVal.num 2, RawVal.num 3]))
        "bitcoin" = .ok r
      ∧ r.predicted_price =
          pyVal (((Frame.mk true [RawVal.num 1, RawVal.num 2,
            RawVal.num 3]).rows.getLast?).getD RawVal.nan)
      ∧ r.predicted_change_pct = some 0
      ∧ r.fallback = true :=
  (claim_C8_no_exceptions_amended errPredict "bitcoin"
      (some (Frame.mk true [RawVal.num 1, RawVal.num 2, RawVal.num 3]))
      (by decide)).2.2
    (Frame.mk true [RawVal.num 1, RawVal.num 2, RawVal.num 3]) rfl
    (by decide) rfl (by decide) "boom" rfl

/-- Counterexample for C8 as stated: a frame whose close column is
`[1.0, "x"]` survives both data checks (after coercion and forward fill the
series is `[1.0, 1.0]`), but `float(latest["close"])` is applied to the raw
string `"x"`, and the `ValueError` escapes `hybrid_signal` unhandled. -/
theorem claim_C8_no_exceptions_counterexample :
    hybridSignal okPredict
        (some (Frame.mk true [RawVal.num 1, RawVal.str "x"])) "bitcoin" =
      .error ("could not convert string to float: " ++ "x") := rfl

/-! ### C7: signal membership and RSI range -/

theorem mem_someVals {w : List Val} {q : ℚ} (h : q ∈ someVals w) : some q ∈ w := by
  simp only [someVals, List.mem_filterMap, id] at h
  obtain ⟨a, ha, rfl⟩ := h
  exact ha

theorem nth_map_range {n i : ℕ} {g : ℕ → Val} (hi : i < n) :
    nth ((List.range n).map g) i = g i := by
  unfold nth
  rw [List.getElem?_map, List.getElem?_range hi]
  rfl

theorem nth_map_range_ge {n i : ℕ} {g : ℕ → Val} (hi : n ≤ i) :
    nth ((List.range n).map g) i = none := by
  unfold nth
  rw [List.getElem?_map, List.getElem?_eq_none (by simpa using hi)]
  rfl

theorem rollingMean_nth_nonneg {s : List Val} {w m i : ℕ} {v : ℚ}
    (hs : ∀ q : ℚ, some q ∈ s → 0 ≤ q)
    (h : nth (rollingMean s w m) i = some v) : 0 ≤ v := by
  rcases Nat.lt_or_ge i s.length with hi | hi
  · unfold rollingMean at h
    rw [nth_map_range hi] at h
    dsimp only at h
    split at h
    · have hv := Option.some.inj h
      refine hv ▸ div_nonneg ?_ (Nat.cast_nonneg _)
      exact List.sum_nonneg fun q hq =>
        hs q (List.mem_of_mem_take (List.mem_of_mem_drop (mem_someVals hq)))
    · exact absurd h (by simp)
  · unfold rollingMean at h
    rw [nth_map_range_ge hi] at h
    exact absurd h (by simp)

theorem rsiGain_nonneg (delta : List Val) :
    ∀ q : ℚ, some q ∈ rsiGain delta → 0 ≤ q := by
  intro q hq
  simp only [rsiGain, List.mem_map] at hq
  obtain ⟨o, _, heq⟩ := hq
  cases o with
  | none => simp at heq
  | some x =>
    have hx : q = max x 0 := by
      simpa using (Option.some.inj (by simpa using heq)).symm
    rw [hx]
    exact le_max_right x 0

theorem rsiLoss_nonneg (delta : List Val) :
    ∀ q : ℚ, some q ∈ rsiLoss delta → 0 ≤ q := by
  intro q hq
  simp only [rsiLoss, List.mem_map] at hq
  obtain ⟨o, _, heq⟩ := hq
  cases o with
  | none => simp at heq
  | some x =>
    have hx : q = -(min x 0) := by
      simpa using (Option.some.inj (by simpa using heq)).symm
    rw [hx]
    exact neg_nonneg.2 (min_le_right x 0)

theorem rsiRsList_mem {n : ℕ} {A B : List Val} {o : Val}
    (ho : o ∈ rsiRsList n A B) :
    o = none ∨ ∃ i g l, nth A i = some g ∧ nth B i = some l
      ∧ o = some (if l = 0 then (0 : ℚ) else g / l) := by
  simp only [rsiRsList, List.mem_map, List.mem_range] at ho
  obtain ⟨i, _, heq⟩ := ho
  rcases hA : nth A i with _ | g <;> rcases hB : nth B i with _ | l <;>
    rw [hA, hB] at heq
  · exact Or.inl heq.symm
  · exact Or.inl heq.symm
  · exact Or.inl heq.symm
  · exact Or.inr ⟨i, g, l, hA, hB, heq.symm⟩

theorem rsiFill_bounds {o : Val} (ho : ∀ r : ℚ, o = some r → 0 ≤ r) :
    0 ≤ rsiFill o ∧ rsiFill o ≤ 100 := by
  cases o with
  | none => norm_num [rsiFill]
  | some r =>
    have hr := ho r rfl
    have h1 : (0 : ℚ) < 1 + r := by linarith
    have h2 : 100 / (1 + r) ≤ 100 := div_le_self (by norm_num) (by linarith)
    have h3 : 0 ≤ 100 / (1 + r) := le_of_lt (div_pos (by norm_num) h1)
    unfold rsiFill
    constructor <;> linarith

theorem compute_rsi_mem_bounds (s : List Val) (w : ℕ) :
    ∀ x ∈ compute_rsi s w, 0 ≤ x ∧ x ≤ 100 := by
  intro x hx
  simp only [compute_rsi, List.mem_map] at hx
  obtain ⟨o, ho, rfl⟩ := hx
  rcases rsiRsList_mem ho with rfl | ⟨i, g, l, hA, hB, rfl⟩
  · norm_num [rsiFill]
  · apply rsiFill_bounds
    intro r hr
    have hg : 0 ≤ g := rollingMean_nth_nonneg (rsiGain_nonneg _) hA
    have hl : 0 ≤ l := rollingMean_nth_nonneg (rsiLoss_nonneg _) hB
    have hre := Option.some.inj hr
    rw [← hre]
    split_ifs with h0
    · exact le_refl 0
    · exact div_nonneg hg hl

theorem ffillGo_length : ∀ (s : List Val) (st : Val),
    (ffillGo st s).length = s.length := by
  intro s
  induction s with
  | nil => intro st; rfl
  | cons v rest ih =>
    intro st
    cases v <;> simp [ffillGo, ih]

theorem compute_rsi_length (s : List Val) (w : ℕ) :
    (compute_rsi s w).length = s.length := by
  simp [compute_rsi, rsiRsList]

theorem allNum_last_not_str {rows : List RawVal}
    (h : rows.all RawVal.isNum = true) :
    ((rows.getLast?).getD RawVal.nan).isStr = false := by
  cases hlast : rows.getLast? with
  | none => rfl
  | some v =>
    have hv : v ∈ rows := List.mem_of_getLast?_eq_some hlast
    have hnum := List.all_eq_true.1 h v hv
    cases v with
    | num q => rfl
    | nan => rfl
    | str s2 => simp [RawVal.isNum] at hnum

theorem allNum_ffill_not_all_none {rows : List RawVal} (hne : rows ≠ [])
    (h : rows.all RawVal.isNum = true) :
    (ffill (rows.map coerceVal)).all Option.isNone = false := by
  cases rows with
  | nil => exact absurd rfl hne
  | cons r rest =>
    cases r with
    | num q => simp [ffill, ffillGo, coerceVal]
    | nan => simp [RawVal.isNum] at h
    | str s2 => simp [RawVal.isNum] at h

theorem baseSig_cases (sc : ℤ) :
    baseSig sc = "BUY" ∨ baseSig sc = "HOLD" ∨ baseSig sc = "SELL" := by
  unfold baseSig
  split_ifs <;> simp

theorem applyOverride_mem (b : String) (pct : Val)
    (hb : b = "BUY" ∨ b = "HOLD" ∨ b = "SELL") :
    applyOverride b pct ∈ (["BUY", "HOLD", "SELL"] : List String) := by
  unfold applyOverride
  split_ifs <;> rcases hb with rfl | rfl | rfl <;> simp

theorem mainResult_signal (predict : List Val → Except String Forecast)
    (close : List Val) (lc : Val) (coin : String) :
    (mainResult predict close lc coin).signal =
      applyOverride
        (baseSig (techScore ((compute_rsi close 14).getLast?)
          (lastVal (compute_macd close).macd)
          (lastVal (compute_macd close).signal)
          (lastVal (compute_ma close 50)) (lastVal (compute_ma close 200))))
        ((forecastOf predict close lc).pct) := rfl

theorem mainResult_rsi (predict : List Val → Except String Forecast)
    (close : List Val) (lc : Val) (coin : String) :
    (mainResult predict close lc coin).indicators.rsi =
      (compute_rsi close 14).getLast? := rfl

/-- A 32-row all-numeric close column. -/
def numRows32 : List RawVal := (List.range 32).map (fun i => RawVal.num i)

/-- C7: every element of every RSI series `compute_rsi` produces lies in
`[0, 100]`; and for every well-formed frame (a close column of at least
`lookback + 2 = 32` numeric cells), `hybrid_signal` returns a result whose
signal is one of `BUY`, `HOLD`, `SELL` and whose latest RSI indicator lies in
`[0, 100]`. -/
theorem claim_C7_signal_set_and_rsi_range :
    (∀ (s : List Val) (w : ℕ), ∀ x ∈ compute_rsi s w, 0 ≤ x ∧ x ≤ 100)
    ∧ (∀ (predict : List Val → Except String Forecast) (coin : String)
        (f : Frame),
        f.hasClose = true → f.rows.all RawVal.isNum = true →
        32 ≤ f.rows.length →
        ∃ r, hybridSignal predict (some f) coin = .ok r
          ∧ r.signal ∈ (["BUY", "HOLD", "SELL"] : List String)
          ∧ ∃ q, r.indicators.rsi = some q ∧ 0 ≤ q ∧ q ≤ 100) := by
  constructor
  · exact compute_rsi_mem_bounds
  · intro predict coin f h2 hall hlen32
    have hne : f.rows ≠ [] := by
      intro h0
      rw [h0] at hlen32
      simp at hlen32
    have h1 : f.rows.isEmpty = false := by simpa [List.isEmpty_iff] using hne
    have h3 := allNum_ffill_not_all_none hne hall
    have h4 := allNum_last_not_str hall
    refine ⟨_, hybridSignal_main predict f coin h1 h2 h3 h4, ?_, ?_⟩
    · rw [mainResult_signal]
      exact applyOverride_mem _ _ (baseSig_cases _)
    · rw [mainResult_rsi]
      have hlen : (compute_rsi (ffill (f.rows.map coerceVal)) 14).length =
          f.rows.length := by
        rw [compute_rsi_length, ffill, ffillGo_length, List.length_map]
      have hne2 : compute_rsi (ffill (f.rows.map coerceVal)) 14 ≠ [] := by
        intro h0
        rw [h0] at hlen
        simp at hlen
        omega
      cases hq : (compute_rsi (ffill (f.rows.map coerceVal)) 14).getLast? with
      | none => exact absurd (List.getLast?_eq_none_iff.1 hq) hne2
      | some q =>
        obtain ⟨hq0, hq100⟩ :=
          compute_rsi_mem_bounds (ffill (f.rows.map coerceVal)) 14 q
            (List.mem_of_getLast?_eq_some hq)
        exact ⟨q, rfl, hq0, hq100⟩

/-- Witness for C7: the bound instantiated at a singleton series (whose only
RSI value is the neutral 50), and the engine run on a 32-row numeric frame. -/
theorem claim_C7_signal_set_and_rsi_range_witness :
    ((0 : ℚ) ≤ 50 ∧ (50 : ℚ) ≤ 100)
    ∧ ∃ r, hybridSignal okPredict (some (Frame.mk true numRows32)) "bitcoin" =
          .ok r
        ∧ r.signal ∈ (["BUY", "HOLD", "SELL"] : List String)
        ∧ ∃ q, r.indicators.rsi = some q ∧ 0 ≤ q ∧ q ≤ 100 :=
  ⟨claim_C7_signal_set_and_rsi_range.1 [some 1] 14 50 (by decide),
   claim_C7_signal_set_and_rsi_range.2 okPredict "bitcoin"
     (Frame.mk true numRows32) rfl (by decide) (by decide)⟩

/-! ### C5 and C6: behaviour of compute_rsi when the average loss is zero -/

theorem ewmGo_const (α c : ℚ) : ∀ n : ℕ,
    ewmGo α (some c) (List.replicate n (some c)) = List.replicate n (some c) := by
  intro n
  induction n with
  | zero => rfl
  | succ k ih =>
    have hc : α * c + (1 - α) * c = c := by ring
    simp only [List.replicate_succ, ewmGo, hc]
    rw [ih]

theorem ewm_const (span c : ℚ) : ∀ n : ℕ,
    ewm span (List.replicate n (some c)) = List.replicate n (some c) := by
  intro n
  cases n with
  | zero => rfl
  | succ k =>
    simp only [ewm, List.replicate_succ, ewmGo]
    rw [ewmGo_const]

theorem zipWith_optSub_const (c : ℚ) : ∀ n : ℕ,
    List.zipWith optSub (List.replicate n (some c))
      (List.replicate n (some c)) = List.replicate n (some 0) := by
  intro n
  induction n with
  | zero => rfl
  | succ k ih => simp [List.replicate_succ, optSub, ih]

theorem compute_macd_const (c : ℚ) (n : ℕ) :
    (compute_macd (List.replicate n (some c))).macd = List.replicate n (some 0)
    ∧ (compute_macd (List.replicate n (some c))).signal =
        List.replicate n (some 0) := by
  constructor
  · show List.zipWith optSub (ewm 12 _) (ewm 26 _) = _
    rw [ewm_const, ewm_const, zipWith_optSub_const]
  · show ewm 9 (List.zipWith optSub (ewm 12 _) (ewm 26 _)) = _
    rw [ewm_const, ewm_const, zipWith_optSub_const, ewm_const]

set_option maxHeartbeats 4000000 in
/-- C5 (actual code behaviour): for every all-identical close series the MACD
line and its signal line are identically 0 as the spec says, but the RSI does
not converge to 50 — once the rolling window is complete (position 14 of a
15-element constant series) the zero average loss is replaced by `+∞`, making
`rs = 0/∞ = 0` and `rsi = 100 - 100/(1+0) = 0`.  The latest RSI of a constant
series is therefore 0, not 50. -/
theorem claim_C5_constant_series_eval :
    (∀ (n : ℕ) (q : ℚ),
      (compute_macd (List.replicate n (some q))).macd =
        List.replicate n (some 0)
      ∧ (compute_macd (List.replicate n (some q))).signal =
          List.replicate n (some 0))
    ∧ (compute_rsi (List.replicate 15 (some 100)) 14).getLast? = some 0 := by
  constructor
  · intro n q
    exact compute_macd_const q n
  · norm_num [compute_rsi, diff, rsiGain, rsiLoss, rsiRsList, rsiFill,
      rollingMean, someVals, nth, optSub, List.range_succ, List.replicate]
    norm_num [List.filterMap_cons]

/-- The strictly increasing close series `1, 2, ..., 15`. -/
def incrSeries15 : List Val := (List.range 15).map (fun i => some ((i : ℚ) + 1))

set_option maxHeartbeats 8000000 in
/-- C6 (actual code behaviour): on the strictly increasing series
`1, 2, ..., 15` the trailing window at the last position is complete and its
average loss is 0, yet the resulting RSI value is 0, not 100: the code
replaces the zero average loss by `+∞` in the denominator, so
`rs = avg_gain/∞ = 0` and `rsi = 100 - 100/(1+0) = 0`. -/
theorem claim_C6_zero_loss_eval :
    nth (rollingMean (rsiLoss (diff incrSeries15)) 14 14) 14 = some 0
    ∧ (compute_rsi incrSeries15 14).getLast? = some 0 := by
  constructor
  · norm_num [incrSeries15, diff, rsiLoss, rollingMean, someVals, nth,
      optSub, List.range_succ]
    norm_num [List.filterMap_cons]
  · norm_num [incrSeries15, compute_rsi, diff, rsiGain, rsiLoss, rsiRsList,
      rsiFill, rollingMean, someVals, nth, optSub, List.range_succ]
    norm_num [List.filterMap_cons]

end FinWise
